import Mathlib

/-!
Verification of the entry reconciliation engine of external-dns-management.

The definitions below are a shallow embedding of the Go source
(`pkg/dns/provider/entry.go`, shown in the repository sources): the pure
computation of each function is translated directly; external collaborators
(the object store, the address resolver, the target parser, the cancellable
lock primitive) are passed in as explicit parameters or modelled from the
specification where their code is not part of the sources.
-/

namespace DNSEngine

/-- DNS record kinds used by the target model (`dns.RS_A`, `dns.RS_AAAA`,
    `dns.RS_CNAME`, `dns.RS_TXT`). -/
inductive RecordType where
  | A
  | AAAA
  | CNAME
  | TXT
deriving DecidableEq, Repr

/-- One resolved record value: record kind, host/value and TTL
    (`dnsutils.Target`).  Targets are compared by value. -/
structure Target where
  rtype : RecordType
  host : String
  ttl : Int
deriving DecidableEq, Repr

/-- An ordered collection of targets (`provider.Targets`). -/
abbrev Targets := List Target

/-- Modelled from the spec: `Targets.Has` — membership by value (the target
    model compares targets by value for de-duplication). -/
def Targets.Has (ts : Targets) (t : Target) : Bool :=
  ts.contains t

/-- Lifecycle state constant `api.STATE_READY`. -/
def STATE_READY : String := "Ready"

/-- Lifecycle state constant `api.STATE_STALE`. -/
def STATE_STALE : String := "Stale"

/-- Lifecycle state constant `api.STATE_ERROR`. -/
def STATE_ERROR : String := "Error"

/-- Lifecycle state constant `api.STATE_INVALID`. -/
def STATE_INVALID : String := "Invalid"

/-- Lifecycle state constant `api.STATE_PENDING`. -/
def STATE_PENDING : String := "Pending"

/-- Lifecycle state constant `api.STATE_DELETING`. -/
def STATE_DELETING : String := "Deleting"

/-! ## EntryPremise (`EntryPremise`, `Match`, `NotifyChange`) -/

/-- The responsibility decision for one entry (`EntryPremise`).  Provider
    identities (interface values compared by identity in Go) are modelled as
    `Option String` names; `none` is the nil provider. -/
structure EntryPremise where
  ptypes : List String
  ptype : String
  provider : Option String
  fallback : Option String
  zoneid : String
  zonedomain : String
deriving DecidableEq, Repr

/-- Rendering of a possibly-nil provider (`Provider(p)`). -/
def ProviderString : Option String → String
  | none => "<none>"
  | some s => s

/-- Structural equality on the four identifying fields (`EntryPremise.Match`). -/
def EntryPremise.Match (this p : EntryPremise) : Bool :=
  this.ptype == p.ptype && this.provider == p.provider &&
    this.zoneid == p.zoneid && this.fallback == p.fallback

/-- The list `r` built by `EntryPremise.NotifyChange`: one diff item for each
    of the four identifying fields that differs. -/
def EntryPremise.notifyList (this p : EntryPremise) : List String :=
  (if this.ptype ≠ p.ptype then
    ["provider type (" ++ this.ptype ++ " -> " ++ p.ptype ++ ")"] else []) ++
  (if this.provider ≠ p.provider then
    ["provider (" ++ ProviderString this.provider ++ " -> " ++ ProviderString p.provider ++ ")"]
   else []) ++
  (if this.zoneid ≠ p.zoneid then
    ["zone (" ++ this.zoneid ++ " -> " ++ p.zoneid ++ ")"] else []) ++
  (if this.fallback ≠ p.fallback then
    ["fallback (" ++ ProviderString this.fallback ++ " -> " ++ ProviderString p.fallback ++ ")"]
   else [])

/-- Human-readable premise diff (`EntryPremise.NotifyChange`): empty string
    when nothing differs, otherwise the joined diff items. -/
def EntryPremise.NotifyChange (this p : EntryPremise) : String :=
  let r := this.notifyList p
  if r = [] then ""
  else "premise changed: " ++ String.intercalate ", " r

theorem notifyList_eq_nil_iff (a b : EntryPremise) :
    a.notifyList b = [] ↔
      (a.ptype = b.ptype ∧ a.provider = b.provider ∧ a.zoneid = b.zoneid ∧
        a.fallback = b.fallback) := by
  unfold EntryPremise.notifyList
  by_cases h1 : a.ptype = b.ptype <;>
    by_cases h2 : a.provider = b.provider <;>
      by_cases h3 : a.zoneid = b.zoneid <;>
        by_cases h4 : a.fallback = b.fallback <;>
          simp [h1, h2, h3, h4]

theorem match_iff (a b : EntryPremise) :
    a.Match b = true ↔
      (a.ptype = b.ptype ∧ a.provider = b.provider ∧ a.zoneid = b.zoneid ∧
        a.fallback = b.fallback) := by
  unfold EntryPremise.Match
  constructor
  · intro h
    simp only [Bool.and_eq_true, beq_iff_eq] at h
    exact ⟨h.1.1.1, h.1.1.2, h.1.2, h.2⟩
  · intro ⟨h1, h2, h3, h4⟩
    simp [h1, h2, h3, h4]

theorem notifyChange_empty_iff_match (a b : EntryPremise) :
    (a.NotifyChange b = "") ↔ a.Match b = true := by
  unfold EntryPremise.NotifyChange
  rw [match_iff]
  rw [← notifyList_eq_nil_iff]
  by_cases h : a.notifyList b = []
  · simp [h]
  · simp only [h, if_false, iff_false]
    intro hc
    have hlen : ("premise changed: " ++ String.intercalate ", " (a.notifyList b)).length = 0 := by
      rw [hc]; rfl
    have h17 : ("premise changed: " : String).length = 17 := rfl
    rw [String.length_append, h17] at hlen
    omega

/-- The number of diff items equals the number of differing identifying
    fields. -/
theorem notifyList_length (a b : EntryPremise) :
    (a.notifyList b).length =
      (if a.ptype = b.ptype then 0 else 1) + (if a.provider = b.provider then 0 else 1) +
      (if a.zoneid = b.zoneid then 0 else 1) + (if a.fallback = b.fallback then 0 else 1) := by
  unfold EntryPremise.notifyList
  by_cases h1 : a.ptype = b.ptype <;>
    by_cases h2 : a.provider = b.provider <;>
      by_cases h3 : a.zoneid = b.zoneid <;>
        by_cases h4 : a.fallback = b.fallback <;>
          simp [h1, h2, h3, h4]

/-- C8: `NotifyChange(a,b)` is the empty string exactly when `Match(a,b)`
    holds; a non-empty result lists one diff item per differing field among
    {provider type, provider instance, zone id, fallback}; the zone domain
    participates in neither `Match` nor `NotifyChange`. -/
theorem C8_notifyChange_match (a b : EntryPremise) (d d' : String) :
    ((a.NotifyChange b = "") ↔ a.Match b = true) ∧
    ((a.notifyList b).length =
      (if a.ptype = b.ptype then 0 else 1) + (if a.provider = b.provider then 0 else 1) +
      (if a.zoneid = b.zoneid then 0 else 1) + (if a.fallback = b.fallback then 0 else 1)) ∧
    ({ a with zonedomain := d }.Match { b with zonedomain := d' } = a.Match b) ∧
    ({ a with zonedomain := d }.NotifyChange { b with zonedomain := d' } = a.NotifyChange b) := by
  refine ⟨notifyChange_empty_iff_match a b, notifyList_length a b, rfl, rfl⟩

/-! ## EntryList locking (`EntryList.Less/Sort/Lock`)

An `Entry` owns a cancellable mutual-exclusion lock (`dnsutils.TryLock`,
modelled from the spec: acquisition either succeeds or fails — e.g. on a
cancelled context — and a failed acquisition leaves the lock unheld).  The
outcome of each acquisition attempt is supplied by the `acquire` oracle, and
the lock/unlock calls issued by `EntryList.Lock` are recorded as an event
trace over the entries' lock identities. -/

/-- An entry as seen by `EntryList`: its stable string key (`Entry.key`, the
    object name) and the identity of its lock. -/
structure LEntry where
  key : String
  lockid : Nat
deriving DecidableEq, Repr

/-- Ordering relation of `EntryList.Less`: comparison of the stable string
    keys (`strings.Compare(this[i].key, this[j].key) < 0`), taken reflexively
    for sorting. -/
def keyLE (a b : LEntry) : Prop := a.key ≤ b.key

instance : DecidableRel keyLE := fun a b => inferInstanceAs (Decidable (a.key ≤ b.key))

instance : IsTotal LEntry keyLE := ⟨fun a b => le_total a.key b.key⟩

instance : IsTrans LEntry keyLE := ⟨fun _ _ _ h1 h2 => le_trans h1 h2⟩

/-- Sorting of an `EntryList` into ascending key order (`EntryList.Sort`). -/
def EntryList.Sort (l : List LEntry) : List LEntry := List.insertionSort keyLE l

/-- One lock operation issued by `EntryList.Lock`: acquisition or release of
    the lock with the given identity. -/
inductive LockEvent where
  | acq (id : Nat)
  | rel (id : Nat)
deriving DecidableEq, Repr

/-- The acquisition loop of `EntryList.Lock` over an already-sorted list:
    acquire each lock in order; when the acquisition of the i-th lock fails,
    release locks i-1 down to 0 and report failure. -/
def lockChain (acquire : LEntry → Bool) : List LEntry → List LockEvent × Bool
  | [] => ([], true)
  | e :: rest =>
    if acquire e then
      match lockChain acquire rest with
      | (tr, true) => (LockEvent.acq e.lockid :: tr, true)
      | (tr, false) => (LockEvent.acq e.lockid :: (tr ++ [LockEvent.rel e.lockid]), false)
    else ([], false)

/-- Locking of a whole batch (`EntryList.Lock`): sort, then run the
    acquisition loop.  Returns the trace of lock operations and whether the
    whole batch was acquired (`nil` error in the source). -/
def EntryList.Lock (acquire : LEntry → Bool) (l : List LEntry) : List LockEvent × Bool :=
  lockChain acquire (EntryList.Sort l)

/-- Replay of a lock-event trace over a set of held locks. -/
def runEvents : List Nat → List LockEvent → List Nat
  | s, [] => s
  | s, LockEvent.acq k :: tr => runEvents (k :: s) tr
  | s, LockEvent.rel k :: tr => runEvents (s.erase k) tr

/-- The locks held after a trace, starting from none held. -/
def heldAfter (tr : List LockEvent) : List Nat := runEvents [] tr

theorem runEvents_append (t1 t2 : List LockEvent) :
    ∀ s, runEvents s (t1 ++ t2) = runEvents (runEvents s t1) t2 := by
  induction t1 with
  | nil => intro s; rfl
  | cons ev tr ih =>
    intro s
    cases ev with
    | acq k => exact ih (k :: s)
    | rel k => exact ih (s.erase k)

theorem runEvents_acqs (p : List LEntry) :
    ∀ s, runEvents s (p.map (fun e => LockEvent.acq e.lockid)) =
      (p.map (fun e => e.lockid)).reverse ++ s := by
  induction p with
  | nil => intro s; rfl
  | cons e p' ih =>
    intro s
    simp only [List.map_cons, runEvents, ih, List.reverse_cons, List.append_assoc,
      List.singleton_append]

theorem runEvents_balanced (p : List LEntry) :
    ∀ s, runEvents s
        (p.map (fun e => LockEvent.acq e.lockid) ++
          p.reverse.map (fun e => LockEvent.rel e.lockid)) = s := by
  induction p with
  | nil => intro s; rfl
  | cons e p' ih =>
    intro s
    have hsplit :
        ((e :: p').map (fun x => LockEvent.acq x.lockid) ++
          (e :: p').reverse.map (fun x => LockEvent.rel x.lockid)) =
        LockEvent.acq e.lockid ::
          ((p'.map (fun x => LockEvent.acq x.lockid) ++
            p'.reverse.map (fun x => LockEvent.rel x.lockid)) ++
              [LockEvent.rel e.lockid]) := by
      simp [List.reverse_cons, List.append_assoc]
    rw [hsplit]
    show runEvents (e.lockid :: s)
        ((p'.map (fun x => LockEvent.acq x.lockid) ++
          p'.reverse.map (fun x => LockEvent.rel x.lockid)) ++ [LockEvent.rel e.lockid]) = s
    rw [runEvents_append, ih (e.lockid :: s)]
    show (e.lockid :: s).erase e.lockid = s
    exact List.erase_cons_head e.lockid s

theorem lockChain_all_acquired (acquire : LEntry → Bool) (l : List LEntry)
    (h : l.all acquire = true) :
    lockChain acquire l = (l.map (fun e => LockEvent.acq e.lockid), true) := by
  induction l with
  | nil => rfl
  | cons e rest ih =>
    simp only [List.all_cons, Bool.and_eq_true] at h
    simp only [lockChain, h.1, if_true, ih h.2, List.map_cons]

theorem lockChain_failure (acquire : LEntry → Bool) (l : List LEntry)
    (h : l.all acquire = false) :
    lockChain acquire l =
      ((l.takeWhile acquire).map (fun e => LockEvent.acq e.lockid) ++
        (l.takeWhile acquire).reverse.map (fun e => LockEvent.rel e.lockid), false) := by
  induction l with
  | nil => simp at h
  | cons e rest ih =>
    by_cases ha : acquire e
    · simp only [List.all_cons, ha, Bool.true_and] at h
      simp only [lockChain, ha, if_true, ih h, List.takeWhile_cons, List.map_cons,
        List.reverse_cons, List.map_append, List.map_cons, List.map_nil]
      simp [List.append_assoc]
    · simp only [Bool.not_eq_true] at ha
      simp [lockChain, ha, List.takeWhile_cons]

/-- C1: `EntryList.Lock` first sorts the batch into ascending order of the
    entries' stable string keys, then acquires the per-entry locks in that
    order.  When every acquisition succeeds the trace is exactly the ordered
    acquisitions and all locks are held; when the i-th acquisition fails the
    trace acquires entries 0..i-1 in order and releases them in reverse order
    i-1..0, so that no lock is held after the error is returned. -/
theorem C1_EntryList_Lock (acquire : LEntry → Bool) (l : List LEntry) :
    (EntryList.Sort l).Sorted keyLE ∧
    (EntryList.Sort l).Perm l ∧
    ((EntryList.Sort l).all acquire = true →
      EntryList.Lock acquire l =
        ((EntryList.Sort l).map (fun e => LockEvent.acq e.lockid), true) ∧
      heldAfter (EntryList.Lock acquire l).1 =
        ((EntryList.Sort l).map (fun e => e.lockid)).reverse) ∧
    ((EntryList.Sort l).all acquire = false →
      EntryList.Lock acquire l =
        (((EntryList.Sort l).takeWhile acquire).map (fun e => LockEvent.acq e.lockid) ++
          ((EntryList.Sort l).takeWhile acquire).reverse.map (fun e => LockEvent.rel e.lockid),
          false) ∧
      heldAfter (EntryList.Lock acquire l).1 = []) := by
  refine ⟨List.sorted_insertionSort keyLE l, List.perm_insertionSort keyLE l, ?_, ?_⟩
  · intro h
    have heq := lockChain_all_acquired acquire (EntryList.Sort l) h
    refine ⟨heq, ?_⟩
    unfold EntryList.Lock
    rw [heq]
    show heldAfter ((EntryList.Sort l).map (fun e => LockEvent.acq e.lockid)) = _
    unfold heldAfter
    rw [runEvents_acqs]
    simp
  · intro h
    have heq := lockChain_failure acquire (EntryList.Sort l) h
    refine ⟨heq, ?_⟩
    unfold EntryList.Lock
    rw [heq]
    exact runEvents_balanced ((EntryList.Sort l).takeWhile acquire) []

/-- Witness for C1 at concrete inputs: a batch whose acquisition fails ends
    with no lock held, and a batch where all acquisitions succeed reports
    success. -/
theorem C1_EntryList_Lock_witness :
    heldAfter (EntryList.Lock (fun _ => false) [⟨"a", 0⟩]).1 = [] ∧
    (EntryList.Lock (fun _ => true) [⟨"a", 0⟩]).2 = true := by
  constructor
  · exact ((C1_EntryList_Lock (fun _ => false) [⟨"a", 0⟩]).2.2.2 (by decide)).2
  · exact congrArg Prod.snd
      ((C1_EntryList_Lock (fun _ => true) [⟨"a", 0⟩]).2.2.1 (by decide)).1

/-! ## Reference-completion overlay (`dnsSpecModification`) -/

/-- The wrapped `DNSSpecification` of a completion overlay, modelled by the
    values its own accessors return (nil results are `none`). -/
structure DNSSpecificationVals where
  getTargets : Option (List String)
  getText : Option (List String)
  getTTL : Option Int
  getOwnerId : Option String
  getCNameLookupInterval : Option Int
deriving DecidableEq, Repr

/-- The completion overlay built by `complete` (`dnsSpecModification`): local
    override fields plus the wrapped specification. -/
structure dnsSpecModification where
  spec : DNSSpecificationVals
  targets : Option (List String)
  text : Option (List String)
  ttl : Option Int
  ownerid : Option String
  lookup : Option Int
deriving DecidableEq, Repr

/-- `dnsSpecModification.GetTargets`: override if set, else the wrapped
    specification's targets (this accessor delegates correctly). -/
def dnsSpecModification.GetTargets (this : dnsSpecModification) : Option (List String) :=
  match this.targets with
  | some ts => some ts
  | none => this.spec.getTargets

/-- `dnsSpecModification.GetText`: override if set, else the wrapped
    specification's text (this accessor delegates correctly). -/
def dnsSpecModification.GetText (this : dnsSpecModification) : Option (List String) :=
  match this.text with
  | some ts => some ts
  | none => this.spec.getText

/-- `dnsSpecModification.GetOwnerId` exactly as written in the source: when
    the override is nil the method calls itself again (`this.GetOwnerId()`),
    not the wrapped specification's accessor.  The self-recursion is made
    total with an explicit fuel argument; `none` means the call has not
    returned within the given fuel. -/
def dnsSpecModification.GetOwnerIdFuel (this : dnsSpecModification) : Nat → Option (Option String)
  | 0 => none
  | n + 1 =>
    match this.ownerid with
    | some v => some (some v)
    | none => this.GetOwnerIdFuel n

/-- `dnsSpecModification.GetCNameLookupInterval` exactly as written in the
    source: self-recursive when the override is nil, fuel-indexed. -/
def dnsSpecModification.GetCNameLookupIntervalFuel (this : dnsSpecModification) :
    Nat → Option (Option Int)
  | 0 => none
  | n + 1 =>
    match this.lookup with
    | some v => some (some v)
    | none => this.GetCNameLookupIntervalFuel n

/-- `dnsSpecModification.GetTTL` exactly as written in the source:
    self-recursive when the override is nil, fuel-indexed. -/
def dnsSpecModification.GetTTLFuel (this : dnsSpecModification) : Nat → Option (Option Int)
  | 0 => none
  | n + 1 =>
    match this.ttl with
    | some v => some (some v)
    | none => this.GetTTLFuel n

/-- Modelled from the spec: the intended owner-id accessor — "return override
    if set, else delegate to the wrapped spec". -/
def dnsSpecModification.getOwnerIdIntended (this : dnsSpecModification) : Option String :=
  match this.ownerid with
  | some v => some v
  | none => this.spec.getOwnerId

/-- Modelled from the spec: the intended CNAME-lookup-interval accessor. -/
def dnsSpecModification.getCNameLookupIntervalIntended (this : dnsSpecModification) : Option Int :=
  match this.lookup with
  | some v => some v
  | none => this.spec.getCNameLookupInterval

/-- Modelled from the spec: the intended TTL accessor. -/
def dnsSpecModification.getTTLIntended (this : dnsSpecModification) : Option Int :=
  match this.ttl with
  | some v => some v
  | none => this.spec.getTTL

/-- A completed specification as produced by `complete` for a reference chain
    in which the referencer and the referenced entry both leave owner id,
    TTL and lookup interval unset: the overrides stay nil while the wrapped
    specification carries values. -/
def m0 : dnsSpecModification :=
  { spec := { getTargets := some ["1.2.3.4"], getText := none, getTTL := some 300,
              getOwnerId := some "owner1", getCNameLookupInterval := some 30 },
    targets := some ["1.2.3.4"], text := none, ttl := none, ownerid := none, lookup := none }

/-- C2 (code bug): on a completed specification whose owner-id, lookup and
    TTL overrides are unset, the accessors `GetOwnerId`,
    `GetCNameLookupInterval` and `GetTTL` as written never return — they
    recurse on themselves for every amount of fuel — instead of returning the
    wrapped specification's value, which the intended accessors (and the
    correctly written `GetTargets`/`GetText` in the same type) do return. -/
theorem C2_accessors_self_recursion :
    (∀ fuel : Nat, m0.GetOwnerIdFuel fuel = none) ∧
    (∀ fuel : Nat, m0.GetCNameLookupIntervalFuel fuel = none) ∧
    (∀ fuel : Nat, m0.GetTTLFuel fuel = none) ∧
    m0.getOwnerIdIntended = some "owner1" ∧
    m0.getCNameLookupIntervalIntended = some 30 ∧
    m0.getTTLIntended = some 300 ∧
    m0.GetTargets = some ["1.2.3.4"] ∧
    m0.GetText = none := by
  refine ⟨?_, ?_, ?_, rfl, rfl, rfl, rfl, rfl⟩
  · intro fuel
    induction fuel with
    | zero => rfl
    | succ n ih => simpa [dnsSpecModification.GetOwnerIdFuel, m0] using ih
  · intro fuel
    induction fuel with
    | zero => rfl
    | succ n ih => simpa [dnsSpecModification.GetCNameLookupIntervalFuel, m0] using ih
  · intro fuel
    induction fuel with
    | zero => rfl
    | succ n ih => simpa [dnsSpecModification.GetTTLFuel, m0] using ih

/-! ## Target normalization (`normalizeTargets`) and the multi-CNAME branch
of `EntryVersion.Setup` -/

/-- Result of the external address resolver for one hostname (`lookupHosts`):
    IPv4 and IPv6 address lists on success, `none` on a lookup error. -/
abbrev Resolver := String → Option (List String × List String)

/-- Appending resolved addresses of one record kind to the accumulated
    result, skipping addresses whose value is already present (the `outerV4`
    and `outerV6` loops of `normalizeTargets`). -/
def addAddrs (rt : RecordType) (ttlv : Int) : Targets → List String → Targets
  | result, [] => result
  | result, addr :: rest =>
    if result.any (fun old => old.host == addr) then addAddrs rt ttlv result rest
    else addAddrs rt ttlv (result ++ [⟨rt, addr, ttlv⟩]) rest

/-- The hostname-resolution loop of `normalizeTargets`: each target's host is
    resolved; failures are dropped with an event, successes contribute
    de-duplicated A and AAAA targets carrying the original target's TTL. -/
def resolveAll (resolver : Resolver) : Targets → Targets → Targets
  | result, [] => result
  | result, t :: rest =>
    match resolver t.host with
    | some (v4, v6) =>
      resolveAll resolver (addAddrs RecordType.AAAA t.ttl (addAddrs RecordType.A t.ttl result v4) v6) rest
    | none => resolveAll resolver result rest

/-- Whether the first target is a CNAME record
    (`targets[0].GetRecordType() == dns.RS_CNAME`). -/
def firstIsCNAME : Targets → Bool
  | t :: _ => t.rtype == RecordType.CNAME
  | [] => false

/-- Target normalization (`normalizeTargets`): multi-CNAME detection, the
    more-than-11 capacity check, and resolver-based replacement of CNAME
    targets by de-duplicated addresses.  Returns the effective targets, the
    `multiCName` marker and the ok marker. -/
def normalizeTargets (resolver : Resolver) (targets : Targets) : Targets × Bool × Bool :=
  let multiCNAME := decide (targets.length > 1) && firstIsCNAME targets
  if !multiCNAME then (targets, false, false)
  else if decide (targets.length > 11) then ([], true, false)
  else (resolveAll resolver [] targets, true, true)

/-- Outcome of the multi-CNAME section of `EntryVersion.Setup`: either
    proceed with the effective targets and the lookup interval, or stop and
    recheck after the given interval (seconds) with the given state and
    message. -/
inductive NormOutcome where
  | proceed (targets : Targets) (interval : Int)
  | recheck (st : String) (msg : String) (interval : Int)
deriving DecidableEq, Repr

/-- The multi-CNAME handling of `EntryVersion.Setup` (the non-deleting
    branch): runs `normalizeTargets`, computes the lookup interval (600s
    default, overridden by a declared positive lookup interval), and on zero
    effective targets distinguishes the too-many case (84600s) from the
    nothing-resolved case, moving READY/STALE entries to STALE and others to
    INVALID. -/
def setupNormalize (resolver : Resolver) (lookupInterval : Option Int)
    (oldState : String) (targets : Targets) : NormOutcome :=
  match normalizeTargets resolver targets with
  | (ts, multiCName, multiOk) =>
    if multiCName then
      let interval1 : Int :=
        match lookupInterval with
        | some iv => if iv > 0 then iv else 600
        | none => 600
      if ts.length = 0 then
        let msgInterval : String × Int :=
          if !multiOk then ("too many targets", 84600)
          else ("targets cannot be resolved to any valid IPv4 address", interval1)
        let st := if oldState = STATE_READY ∨ oldState = STATE_STALE then STATE_STALE
                  else STATE_INVALID
        NormOutcome.recheck st msgInterval.1 msgInterval.2
      else NormOutcome.proceed ts interval1
    else NormOutcome.proceed targets 0

/-- C3: a CNAME-first target list longer than 11 normalizes to zero effective
    targets with the not-ok marker, and Setup then rechecks with message
    "too many targets" and interval 84600s; a CNAME-first list of 2..11
    targets none of which resolves rechecks with message "targets cannot be
    resolved to any valid IPv4 address" and the default 600s interval,
    overridden by a declared lookup interval > 0; the two messages differ. -/
theorem C3_too_many_targets (resolver : Resolver) (lookupInterval : Option Int)
    (oldState : String) (targets : Targets) :
    (11 < targets.length → firstIsCNAME targets = true →
      normalizeTargets resolver targets = ([], true, false) ∧
      setupNormalize resolver lookupInterval oldState targets =
        NormOutcome.recheck
          (if oldState = STATE_READY ∨ oldState = STATE_STALE then STATE_STALE else STATE_INVALID)
          "too many targets" 84600) ∧
    (1 < targets.length → targets.length ≤ 11 → firstIsCNAME targets = true →
      resolveAll resolver [] targets = [] →
      setupNormalize resolver lookupInterval oldState targets =
        NormOutcome.recheck
          (if oldState = STATE_READY ∨ oldState = STATE_STALE then STATE_STALE else STATE_INVALID)
          "targets cannot be resolved to any valid IPv4 address"
          (match lookupInterval with
           | some iv => if iv > 0 then iv else 600
           | none => 600)) ∧
    ("too many targets" : String) ≠ "targets cannot be resolved to any valid IPv4 address" := by
  refine ⟨?_, ?_, by decide⟩
  · intro hlen hfirst
    have h1 : decide (targets.length > 1) = true := by
      simp only [decide_eq_true_eq]; omega
    have h11 : decide (targets.length > 11) = true := by
      simp only [decide_eq_true_eq]; omega
    have hnorm : normalizeTargets resolver targets = ([], true, false) := by
      unfold normalizeTargets
      simp [h1, hfirst, h11]
    refine ⟨hnorm, ?_⟩
    unfold setupNormalize
    rw [hnorm]
    simp
  · intro hlen hle hfirst hres
    have h1 : decide (targets.length > 1) = true := by
      simp only [decide_eq_true_eq]; omega
    have h11 : decide (targets.length > 11) = false := by
      simp only [decide_eq_false_iff_not]; omega
    have hnorm : normalizeTargets resolver targets = ([], true, true) := by
      unfold normalizeTargets
      simp [h1, hfirst, h11, hres]
    unfold setupNormalize
    rw [hnorm]
    simp

/-- Witness for C3 at concrete inputs: 12 CNAME targets trigger the too-many
    recheck; 2 unresolvable CNAME targets trigger the short recheck with the
    declared lookup interval. -/
theorem C3_too_many_targets_witness :
    setupNormalize (fun _ => none) none STATE_PENDING
        (List.replicate 12 ⟨RecordType.CNAME, "h", 0⟩) =
      NormOutcome.recheck STATE_INVALID "too many targets" 84600 ∧
    setupNormalize (fun _ => none) (some 30) STATE_READY
        [⟨RecordType.CNAME, "a", 0⟩, ⟨RecordType.CNAME, "b", 0⟩] =
      NormOutcome.recheck STATE_STALE "targets cannot be resolved to any valid IPv4 address" 30 := by
  constructor
  · have h := (C3_too_many_targets (fun _ => none) none STATE_PENDING
      (List.replicate 12 ⟨RecordType.CNAME, "h", 0⟩)).1 (by decide) (by decide)
    rw [h.2]
    simp [STATE_PENDING, STATE_READY, STATE_STALE, STATE_INVALID]
  · have h := (C3_too_many_targets (fun _ => none) (some 30) STATE_READY
      [⟨RecordType.CNAME, "a", 0⟩, ⟨RecordType.CNAME, "b", 0⟩]).2.1
      (by decide) (by decide) (by decide) (by rfl)
    rw [h]
    simp [STATE_READY]

/-! ## The type-responsibility section of `EntryVersion.Setup` -/

/-- The persisted base status of an entry (`api.DNSBaseStatus`), restricted
    to the fields the engine reads and writes.  The last-update timestamp is
    modelled as an integer stamp. -/
structure BaseStatus where
  state : String
  message : Option String
  providerType : Option String
  provider : Option String
  zone : Option String
  ttl : Option Int
  observedGeneration : Int
  targets : Option (List String)
  lastUpdateTime : Int
deriving DecidableEq, Repr

/-- `utils.IsEmptyString`: a nil pointer or an empty string. -/
def IsEmptyString : Option String → Bool
  | none => true
  | some s => s == ""

/-- Externally visible side effects issued by the Setup sections modelled
    here: finalizer removal and persisted status updates (`updateStatus`). -/
inductive Effect where
  | removeFinalizer
  | persistStatus (st : String) (msg : String)
deriving DecidableEq, Repr

/-- Control outcome of the type-responsibility section of Setup. -/
inductive EarlyResult where
  | rescheduleAfter (delay : Int)
  | delayOnPersistError
  | stopRepeatOnError
  | continueSetup
deriving DecidableEq, Repr

/-- The in-memory status, the side effects issued, and the control outcome of
    the type-responsibility section. -/
structure EarlyOutcome where
  status : BaseStatus
  effects : List Effect
  result : EarlyResult
deriving DecidableEq, Repr

/-- The revoke-assignment block of Setup (`p.zoneid == "" &&
    !utils.IsEmptyString(this.status.ProviderType) &&
    p.ptypes.Contains(...)`) followed by the no-responsibility stop
    (`p.zoneid == "" || p.ptype == ""` removes the finalizer and returns). -/
def setupEarlyBlock2 (p : EntryPremise) (persistFails : Bool) (status : BaseStatus)
    (effects : List Effect) : EarlyOutcome :=
  let afterRevoke : BaseStatus × List Effect × Option EarlyOutcome :=
    if p.zoneid == "" && !(IsEmptyString status.providerType) &&
        p.ptypes.contains (status.providerType.getD "") then
      let oldType := status.providerType.getD ""
      let status2 : BaseStatus :=
        { status with provider := none, providerType := none, zone := none }
      let effects2 := effects ++
        [Effect.persistStatus ""
          ("not valid for known provider anymore -> releasing provider type " ++ oldType)]
      if persistFails then (status2, effects2, some ⟨status2, effects2, EarlyResult.delayOnPersistError⟩)
      else (status2, effects2, none)
    else (status, effects, none)
  match afterRevoke with
  | (_, _, some out) => out
  | (st, effs, none) =>
    if p.zoneid == "" || p.ptype == "" then
      ⟨st, effs ++ [Effect.removeFinalizer], EarlyResult.stopRepeatOnError⟩
    else ⟨st, effs, EarlyResult.continueSetup⟩

/-- The type-responsibility section of `EntryVersion.Setup` (from the foreign
    provider-type adoption through the `p.zoneid == "" || p.ptype == ""`
    stop).  `objProviderType` is the object's persisted provider type,
    `st0` the in-memory status snapshot, `errIn` the upstream error passed to
    Setup, and `persistFails` whether a status-persistence call fails. -/
def setupEarly (p : EntryPremise) (objProviderType : Option String) (st0 : BaseStatus)
    (errIn : Option String) (creation delay now : Int) (persistFails : Bool) : EarlyOutcome :=
  let status :=
    if !(IsEmptyString objProviderType) && p.ptype == "" then
      { st0 with providerType := objProviderType }
    else st0
  if IsEmptyString status.providerType ||
      (!(p.zoneid == "") && !(status.providerType.getD "" == p.ptype)) then
    if p.zoneid == "" then
      if now < creation + delay then
        ⟨status, [Effect.removeFinalizer], EarlyResult.rescheduleAfter delay⟩
      else
        let status2 : BaseStatus :=
          { status with provider := none, providerType := none, zone := none }
        let msg :=
          match errIn with
          | none => "No responsible provider found"
          | some e => "No responsible provider found: " ++ e
        let effects2 := [Effect.persistStatus STATE_ERROR msg]
        if persistFails then ⟨status2, effects2, EarlyResult.delayOnPersistError⟩
        else setupEarlyBlock2 p persistFails status2 effects2
    else
      let statusPending : BaseStatus :=
        { status with state := STATE_PENDING, message := some "waiting for dns reconciliation" }
      setupEarlyBlock2 p persistFails statusPending []
  else setupEarlyBlock2 p persistFails status []

/-- Counterexample to C4 as stated: within the grace period, with no zone
    resolved and no provider type assigned, Setup does remove the finalizer —
    the effect list of the pass is exactly the finalizer removal — while
    rescheduling and leaving every status field unchanged. -/
theorem C4_counterexample :
    (setupEarly ⟨[], "", none, none, "", ""⟩ none
        ⟨"", none, none, none, none, none, 0, none, 0⟩ none 0 100 10 false).effects =
      [Effect.removeFinalizer] ∧
    Effect.removeFinalizer ∈
      (setupEarly ⟨[], "", none, none, "", ""⟩ none
        ⟨"", none, none, none, none, none, 0, none, 0⟩ none 0 100 10 false).effects ∧
    (setupEarly ⟨[], "", none, none, "", ""⟩ none
        ⟨"", none, none, none, none, none, 0, none, 0⟩ none 0 100 10 false).result =
      EarlyResult.rescheduleAfter 100 := by
  refine ⟨rfl, ?_, rfl⟩
  rw [(rfl : (setupEarly ⟨[], "", none, none, "", ""⟩ none
    ⟨"", none, none, none, none, none, 0, none, 0⟩ none 0 100 10 false).effects =
      [Effect.removeFinalizer])]
  exact List.mem_singleton.mpr rfl

/-- C4 as amended: for every entry whose premise resolves no zone and whose
    provider type is unassigned, within the grace period after creation Setup
    writes no status field and issues no status persistence, but it does
    remove the entry's finalizer, and reschedules after the configured
    delay. -/
theorem C4_grace_period (p : EntryPremise) (objProviderType : Option String)
    (st0 : BaseStatus) (errIn : Option String) (creation delay now : Int)
    (persistFails : Bool)
    (hzone : p.zoneid = "")
    (hpt : IsEmptyString st0.providerType = true)
    (hobj : IsEmptyString objProviderType = true)
    (hgrace : now < creation + delay) :
    setupEarly p objProviderType st0 errIn creation delay now persistFails =
      ⟨st0, [Effect.removeFinalizer], EarlyResult.rescheduleAfter delay⟩ := by
  unfold setupEarly
  have hadopt : (!(IsEmptyString objProviderType) && p.ptype == "") = false := by
    rw [hobj]; rfl
  rw [hadopt]
  simp only [Bool.false_eq_true, if_false, hpt, Bool.true_or, if_true, hzone]
  simp [hgrace]

/-- Witness for C4 (amended) at a concrete input. -/
theorem C4_grace_period_witness :
    setupEarly ⟨[], "", none, none, "", ""⟩ none
        ⟨"", none, none, none, none, none, 0, none, 0⟩ none 0 200 50 true =
      ⟨⟨"", none, none, none, none, none, 0, none, 0⟩, [Effect.removeFinalizer],
        EarlyResult.rescheduleAfter 200⟩ :=
  C4_grace_period ⟨[], "", none, none, "", ""⟩ none
    ⟨"", none, none, none, none, none, 0, none, 0⟩ none 0 200 50 true rfl rfl rfl
    (by decide)

/-! ## Specification validation (`validate`) -/

/-- The accessor values of a DNS specification consumed by `validate`
    (`GetDNSName`, `GetTargets`, `GetText`, `GetTTL`). -/
structure ESpec where
  dnsname : String
  targets : List String
  text : List String
  ttl : Option Int
deriving DecidableEq, Repr

/-- External collaborators of `validate`, passed explicitly: domain-name
    syntax validation (`dns.ValidateDomainName`), entry-kind-specific
    validation (`ValidateSpecial`), reference completion (`complete`, which
    consults the object store and the access checker), target parsing
    (`NewHostTargetFromEntryVersion`) and the entry TTL used for text
    targets. -/
structure ValidateEnv where
  validateDomainName : String → Option String
  validateSpecial : Option String
  completeFn : ESpec → Except String ESpec
  parseTarget : String → Except String Target
  entryTTL : Int

/-- Modelled from the spec: `strings.TrimSpace` — removal of leading and
    trailing whitespace, used by the blank-target check. -/
def trimSpace (s : String) : String :=
  String.mk (((s.data.dropWhile Char.isWhitespace).reverse.dropWhile Char.isWhitespace).reverse)

/-- The target loop of `validate`: blank targets are errors, parsed targets
    are de-duplicated by value, duplicates become warnings. -/
def validateTargetLoop (env : ValidateEnv) :
    List String → Nat → Targets → List String → Except String (Targets × List String)
  | [], _, acc, warns => Except.ok (acc, warns)
  | t :: rest, i, acc, warns =>
    if trimSpace t == "" then
      Except.error ("target " ++ toString (i + 1) ++ " must not be empty")
    else
      match env.parseTarget t with
      | Except.error e => Except.error e
      | Except.ok tgt =>
        if Targets.Has acc tgt then
          validateTargetLoop env rest (i + 1) acc
            (warns ++ ["dns entry has duplicate target " ++ t])
        else
          validateTargetLoop env rest (i + 1) (acc ++ [tgt]) warns

/-- The text loop of `validate`: empty strings are warnings and skipped,
    duplicates become warnings, the rest become TXT targets; the counter
    counts accepted text targets. -/
def validateTextLoop (env : ValidateEnv) :
    List String → Targets → List String → Nat → Targets × List String × Nat
  | [], acc, warns, tcnt => (acc, warns, tcnt)
  | t :: rest, acc, warns, tcnt =>
    if t == "" then
      validateTextLoop env rest acc (warns ++ ["dns entry has empty text"]) tcnt
    else
      let tgt : Target := ⟨RecordType.TXT, t, env.entryTTL⟩
      if Targets.Has acc tgt then
        validateTextLoop env rest acc (warns ++ ["dns entry has duplicate text " ++ t]) tcnt
      else
        validateTextLoop env rest (acc ++ [tgt]) warns (tcnt + 1)

/-- Specification validation (`validate`): domain-name syntax, special
    validation, reference completion, the zone-domain restriction, the
    targets/text exclusivity check, the TTL positivity check, the target and
    text loops, the only-empty-text check and the no-target check.  Returns
    the effective spec, effective targets and warnings, or the first
    error. -/
def validate (env : ValidateEnv) (zonedomain : String) (spec : ESpec) :
    Except String (ESpec × Targets × List String) :=
  match env.validateDomainName spec.dnsname with
  | some e => Except.error e
  | none =>
    match env.validateSpecial with
    | some e => Except.error e
    | none =>
      match env.completeFn spec with
      | Except.error e => Except.error e
      | Except.ok effspec =>
        if zonedomain == spec.dnsname then
          Except.error "usage of dns name identical to domain of hosted zone is not supported"
        else if decide (effspec.targets.length > 0) && decide (effspec.text.length > 0) then
          Except.error "only Text or Targets possible"
        else if (match effspec.ttl with | some v => v == 0 || decide (v < 0) | none => false) then
          Except.error "TTL must be greater than zero"
        else
          match validateTargetLoop env effspec.targets 0 [] [] with
          | Except.error e => Except.error e
          | Except.ok (acc, warns) =>
            match validateTextLoop env effspec.text acc warns 0 with
            | (targets, warnings, tcnt) =>
              if decide (effspec.text.length > 0) && tcnt == 0 then
                Except.error "dns entry has only empty text"
              else if targets.length == 0 then
                Except.error "no target or text specified"
              else Except.ok (effspec, targets, warnings)

theorem validateTargetLoop_spec (env : ValidateEnv) :
    ∀ (ts : List String) (i : Nat) (acc : Targets) (warns : List String),
      (∀ t ∈ ts, ¬(trimSpace t = "")) →
      (∀ t ∈ ts, ∃ tg, env.parseTarget t = Except.ok tg) →
      acc.Nodup →
      ∃ ts' ws', validateTargetLoop env ts i acc warns = Except.ok (ts', ws') ∧
        ts'.Nodup ∧
        ts'.length + ws'.length = acc.length + warns.length + ts.length ∧
        ts'.length ≤ acc.length + ts.length ∧
        acc.length ≤ ts'.length ∧
        ((acc = [] → ts ≠ [] → 0 < ts'.length)) ∧
        (((∃ t ∈ ts, ∃ tg, env.parseTarget t = Except.ok tg ∧ tg ∈ acc) ∨ ¬ts.Nodup) →
          ts'.length < acc.length + ts.length) := by
  intro ts
  induction ts with
  | nil =>
    intro i acc warns _ _ hacc
    refine ⟨acc, warns, rfl, hacc, by simp, by simp, le_refl _, ?_, ?_⟩
    · intro _ h; exact absurd rfl h
    · rintro (⟨t, ht, _⟩ | hnd)
      · exact absurd ht (List.not_mem_nil t)
      · exact absurd List.nodup_nil hnd
  | cons t rest ih =>
    intro i acc warns hblank hparse hacc
    have hbt : (trimSpace t == "") = false := by
      have := hblank t (List.mem_cons_self t rest)
      simp [this]
    obtain ⟨tg, htg⟩ := hparse t (List.mem_cons_self t rest)
    have hblank' : ∀ u ∈ rest, ¬(trimSpace u = "") :=
      fun u hu => hblank u (List.mem_cons_of_mem t hu)
    have hparse' : ∀ u ∈ rest, ∃ tgu, env.parseTarget u = Except.ok tgu :=
      fun u hu => hparse u (List.mem_cons_of_mem t hu)
    by_cases hhas : Targets.Has acc tg = true
    · -- duplicate: dropped with a warning
      have hmem : tg ∈ acc := by
        simpa [Targets.Has, List.contains] using hhas
      obtain ⟨ts', ws', hrun, hnd, hlen, hle, hge, hpos, hstrict⟩ :=
        ih (i + 1) acc (warns ++ ["dns entry has duplicate target " ++ t]) hblank' hparse' hacc
      refine ⟨ts', ws', ?_, hnd, ?_, ?_, hge, ?_, ?_⟩
      · simp only [validateTargetLoop, hbt, if_false, Bool.false_eq_true, htg, hhas, if_true]
        exact hrun
      · simp only [List.length_append, List.length_cons, List.length_singleton, List.length_nil] at hlen ⊢
        omega
      · simp only [List.length_cons]; omega
      · intro haccnil _
        rw [haccnil] at hmem
        exact absurd hmem (List.not_mem_nil tg)
      · intro _
        simp only [List.length_cons]
        omega
    · -- new target: appended
      have hmem : tg ∉ acc := by
        intro hm
        apply hhas
        simpa [Targets.Has, List.contains] using hm
      have hacc' : (acc ++ [tg]).Nodup := by
        simp [List.nodup_append, hacc, hmem]
      obtain ⟨ts', ws', hrun, hnd, hlen, hle, hge, hpos, hstrict⟩ :=
        ih (i + 1) (acc ++ [tg]) warns hblank' hparse' hacc'
      have hhasf : Targets.Has acc tg = false := by
        simp only [Bool.not_eq_true] at hhas; exact hhas
      refine ⟨ts', ws', ?_, hnd, ?_, ?_, ?_, ?_, ?_⟩
      · simp only [validateTargetLoop, hbt, if_false, Bool.false_eq_true, htg, hhasf]
        exact hrun
      · simp only [List.length_append, List.length_cons, List.length_singleton, List.length_nil] at hlen ⊢
        omega
      · simp only [List.length_append, List.length_singleton, List.length_cons, List.length_nil] at hle ⊢
        omega
      · simp only [List.length_append, List.length_singleton, List.length_nil] at hge
        omega
      · intro _ _
        simp only [List.length_append, List.length_singleton, List.length_nil] at hge
        omega
      · rintro (⟨u, hu, tgu, htgu, hmemu⟩ | hnodup)
        · rcases List.mem_cons.mp hu with hut | hurest
          · subst hut
            rw [htg] at htgu
            injection htgu with he
            subst he
            exact absurd hmemu hmem
          · have : ts'.length < (acc ++ [tg]).length + rest.length := by
              refine hstrict (Or.inl ⟨u, hurest, tgu, htgu, ?_⟩)
              exact List.mem_append_left _ hmemu
            simp only [List.length_append, List.length_singleton, List.length_cons, List.length_nil] at this ⊢
            omega
        · rcases (List.nodup_cons.not.mp hnodup) with h
          push_neg at h
          by_cases htrest : t ∈ rest
          · have : ts'.length < (acc ++ [tg]).length + rest.length := by
              refine hstrict (Or.inl ⟨t, htrest, tg, htg, ?_⟩)
              exact List.mem_append_right _ (List.mem_singleton.mpr rfl)
            simp only [List.length_append, List.length_singleton, List.length_cons, List.length_nil] at this ⊢
            omega
          · have hnr : ¬rest.Nodup := h htrest
            have : ts'.length < (acc ++ [tg]).length + rest.length := hstrict (Or.inr hnr)
            simp only [List.length_append, List.length_singleton, List.length_cons, List.length_nil] at this ⊢
            omega

theorem validate_reduces (env : ValidateEnv) (zonedomain : String) (spec : ESpec)
    (hdom : env.validateDomainName spec.dnsname = none)
    (hspecial : env.validateSpecial = none)
    (hcomp : env.completeFn spec = Except.ok spec)
    (hz : (zonedomain == spec.dnsname) = false)
    (hboth : (decide (spec.targets.length > 0) && decide (spec.text.length > 0)) = false)
    (httl : (match spec.ttl with | some v => v == 0 || decide (v < 0) | none => false) = false) :
    validate env zonedomain spec =
      (match validateTargetLoop env spec.targets 0 [] [] with
       | Except.error e => Except.error e
       | Except.ok (acc, warns) =>
         match validateTextLoop env spec.text acc warns 0 with
         | (targets, warnings, tcnt) =>
           if decide (spec.text.length > 0) && tcnt == 0 then
             Except.error "dns entry has only empty text"
           else if targets.length == 0 then
             Except.error "no target or text specified"
           else Except.ok (spec, targets, warnings)) := by
  unfold validate
  rw [hdom, hspecial, hcomp]
  simp only [hz, Bool.false_eq_true, if_false, hboth, httl]

/-- C6 (amended): validation fails whenever the (completed) targets and text
    lists are both non-empty; when after parsing zero effective targets
    remain because the targets and text lists are both entirely absent,
    validation fails with "no target or text specified" — while a non-empty
    text list consisting only of empty strings fails with the distinct error
    "dns entry has only empty text". -/
theorem C6_targets_text_exclusive (env : ValidateEnv) (zonedomain : String) (spec : ESpec) :
    (env.completeFn spec = Except.ok spec → spec.targets ≠ [] → spec.text ≠ [] →
      ∃ e, validate env zonedomain spec = Except.error e) ∧
    (env.validateDomainName spec.dnsname = none → env.validateSpecial = none →
      env.completeFn spec = Except.ok spec → (zonedomain == spec.dnsname) = false →
      (match spec.ttl with | some v => v == 0 || decide (v < 0) | none => false) = false →
      spec.targets = [] → spec.text = [] →
      validate env zonedomain spec = Except.error "no target or text specified") ∧
    (env.validateDomainName spec.dnsname = none → env.validateSpecial = none →
      env.completeFn spec = Except.ok spec → (zonedomain == spec.dnsname) = false →
      (match spec.ttl with | some v => v == 0 || decide (v < 0) | none => false) = false →
      spec.targets = [] → spec.text ≠ [] → (∀ t ∈ spec.text, t = "") →
      validate env zonedomain spec = Except.error "dns entry has only empty text") := by
  refine ⟨?_, ?_, ?_⟩
  · intro hcomp hts htext
    unfold validate
    cases h1 : env.validateDomainName spec.dnsname with
    | some e => exact ⟨e, rfl⟩
    | none =>
      cases h2 : env.validateSpecial with
      | some e => exact ⟨e, rfl⟩
      | none =>
        rw [hcomp]
        by_cases hz : (zonedomain == spec.dnsname) = true
        · exact ⟨"usage of dns name identical to domain of hosted zone is not supported",
            by simp [hz]⟩
        · have hz' : (zonedomain == spec.dnsname) = false := by
            simpa using hz
          have hb : (decide (spec.targets.length > 0) && decide (spec.text.length > 0)) = true := by
            simp only [Bool.and_eq_true, decide_eq_true_eq]
            exact ⟨List.length_pos.mpr hts, List.length_pos.mpr htext⟩
          exact ⟨"only Text or Targets possible", by simp [hz', hb]⟩
  · intro hdom hspecial hcomp hz httl hts htext
    have hboth : (decide (spec.targets.length > 0) && decide (spec.text.length > 0)) = false := by
      rw [hts]; rfl
    rw [validate_reduces env zonedomain spec hdom hspecial hcomp hz hboth httl]
    rw [hts, htext]
    rfl
  · intro hdom hspecial hcomp hz httl hts htext hallblank
    have hboth : (decide (spec.targets.length > 0) && decide (spec.text.length > 0)) = false := by
      rw [hts]; rfl
    rw [validate_reduces env zonedomain spec hdom hspecial hcomp hz hboth httl]
    rw [hts]
    show (match validateTextLoop env spec.text [] [] 0 with
          | (targets, warnings, tcnt) =>
            if decide (spec.text.length > 0) && tcnt == 0 then
              Except.error "dns entry has only empty text"
            else if targets.length == 0 then
              Except.error "no target or text specified"
            else Except.ok (spec, targets, warnings)) =
        Except.error "dns entry has only empty text"
    have hloop : ∀ (l : List String), (∀ t ∈ l, t = "") → ∀ acc warns,
        validateTextLoop env l acc warns 0 =
          (acc, warns ++ l.map (fun _ => "dns entry has empty text"), 0) := by
      intro l
      induction l with
      | nil => intro _ acc warns; simp [validateTextLoop]
      | cons x xs ihx =>
        intro hall acc warns
        have hx : x = "" := hall x (List.mem_cons_self x xs)
        have hxs : ∀ t ∈ xs, t = "" := fun t ht => hall t (List.mem_cons_of_mem x ht)
        subst hx
        simp only [validateTextLoop, beq_self_eq_true, if_true, ihx hxs, List.map_cons,
          List.append_assoc, List.singleton_append]
    rw [hloop spec.text hallblank [] []]
    have hlen : decide (spec.text.length > 0) = true := by
      simp only [decide_eq_true_eq]
      exact List.length_pos.mpr htext
    simp [hlen]

/-- Counterexample to C6 as stated: a spec with no targets and a text list
    holding a single empty string has zero effective targets and no non-empty
    text, yet validation fails with "dns entry has only empty text", not with
    "no target or text specified". -/
theorem C6_counterexample :
    validate
        { validateDomainName := fun _ => none, validateSpecial := none,
          completeFn := Except.ok,
          parseTarget := fun t => Except.ok ⟨RecordType.CNAME, t, 0⟩, entryTTL := 0 }
        "zone.example" ⟨"a.example", [], [""], none⟩ =
      Except.error "dns entry has only empty text" ∧
    ("dns entry has only empty text" : String) ≠ "no target or text specified" := by
  exact ⟨rfl, by decide⟩

/-- Witness for C6 (amended) at concrete inputs. -/
theorem C6_targets_text_exclusive_witness :
    (∃ e, validate
        { validateDomainName := fun _ => none, validateSpecial := none,
          completeFn := Except.ok,
          parseTarget := fun t => Except.ok ⟨RecordType.CNAME, t, 0⟩, entryTTL := 0 }
        "zone.example" ⟨"a.example", ["1.2.3.4"], ["txt"], none⟩ = Except.error e) ∧
    validate
        { validateDomainName := fun _ => none, validateSpecial := none,
          completeFn := Except.ok,
          parseTarget := fun t => Except.ok ⟨RecordType.CNAME, t, 0⟩, entryTTL := 0 }
        "zone.example" ⟨"a.example", [], [], none⟩ =
      Except.error "no target or text specified" := by
  constructor
  · exact (C6_targets_text_exclusive
      { validateDomainName := fun _ => none, validateSpecial := none,
        completeFn := Except.ok,
        parseTarget := fun t => Except.ok ⟨RecordType.CNAME, t, 0⟩, entryTTL := 0 }
      "zone.example" ⟨"a.example", ["1.2.3.4"], ["txt"], none⟩).1 rfl (by decide) (by decide)
  · exact (C6_targets_text_exclusive
      { validateDomainName := fun _ => none, validateSpecial := none,
        completeFn := Except.ok,
        parseTarget := fun t => Except.ok ⟨RecordType.CNAME, t, 0⟩, entryTTL := 0 }
      "zone.example" ⟨"a.example", [], [], none⟩).2.1 rfl rfl rfl (by decide) rfl rfl rfl

/-- C5 (amended): for a spec whose target list contains duplicate values and
    no text values, whose earlier checks (domain name, special validation,
    completion, zone-domain, TTL) pass, and whose targets are all non-blank
    and parse successfully, validation succeeds; the effective targets
    contain no two targets equal by value; the number of warnings equals the
    number of duplicate occurrences dropped, and at least one occurrence is
    dropped. -/
theorem C5_duplicate_targets (env : ValidateEnv) (zonedomain : String) (spec : ESpec)
    (hdom : env.validateDomainName spec.dnsname = none)
    (hspecial : env.validateSpecial = none)
    (hcomp : env.completeFn spec = Except.ok spec)
    (hz : (zonedomain == spec.dnsname) = false)
    (httl : (match spec.ttl with | some v => v == 0 || decide (v < 0) | none => false) = false)
    (htext : spec.text = [])
    (hdup : ¬spec.targets.Nodup)
    (hblank : ∀ t ∈ spec.targets, ¬(trimSpace t = ""))
    (hparse : ∀ t ∈ spec.targets, ∃ tg, env.parseTarget t = Except.ok tg) :
    ∃ ts ws, validate env zonedomain spec = Except.ok (spec, ts, ws) ∧
      ts.Nodup ∧ ws.length + ts.length = spec.targets.length ∧ 0 < ws.length := by
  have hboth : (decide (spec.targets.length > 0) && decide (spec.text.length > 0)) = false := by
    rw [htext]; simp
  obtain ⟨ts', ws', hrun, hnd, hlen, _, _, hpos, hstrict⟩ :=
    validateTargetLoop_spec env spec.targets 0 [] [] hblank hparse List.nodup_nil
  have htne : spec.targets ≠ [] := by
    intro h
    rw [h] at hdup
    exact hdup List.nodup_nil
  have hposlen : 0 < ts'.length := hpos rfl htne
  have hstrictlen : ts'.length < spec.targets.length := by
    have := hstrict (Or.inr hdup)
    simpa using this
  refine ⟨ts', ws', ?_, hnd, ?_, ?_⟩
  · rw [validate_reduces env zonedomain spec hdom hspecial hcomp hz hboth httl]
    rw [hrun, htext]
    show (if decide (([] : List String).length > 0) && (0 == 0) then
            Except.error "dns entry has only empty text"
          else if ts'.length == 0 then
            Except.error "no target or text specified"
          else Except.ok (spec, ts', ws')) = Except.ok (spec, ts', ws')
    have hne : (ts'.length == 0) = false := by
      simp only [beq_eq_false_iff_ne, ne_eq]
      omega
    simp [hne]
  · simp only [List.length_nil] at hlen
    omega
  · simp only [List.length_nil] at hlen
    omega

/-- Counterexample to C5 as stated: a spec whose target list holds the
    duplicate values "" and "" and no text fails validation ("target 1 must
    not be empty") rather than succeeding. -/
theorem C5_counterexample :
    validate
        { validateDomainName := fun _ => none, validateSpecial := none,
          completeFn := Except.ok,
          parseTarget := fun t => Except.ok ⟨RecordType.CNAME, t, 0⟩, entryTTL := 0 }
        "zone.example" ⟨"a.example", ["", ""], [], none⟩ =
      Except.error "target 1 must not be empty" := by
  rfl

/-- Witness for C5 (amended) at a concrete input: targets ["x", "x"] give one
    effective target and one warning. -/
theorem C5_duplicate_targets_witness :
    ∃ ts ws, validate
        { validateDomainName := fun _ => none, validateSpecial := none,
          completeFn := Except.ok,
          parseTarget := fun t => Except.ok ⟨RecordType.CNAME, t, 0⟩, entryTTL := 0 }
        "zone.example" ⟨"a.example", ["x", "x"], [], none⟩ =
      Except.ok (⟨"a.example", ["x", "x"], [], none⟩, ts, ws) ∧
      ts.Nodup ∧ ws.length + ts.length = 2 ∧ 0 < ws.length := by
  exact C5_duplicate_targets
    { validateDomainName := fun _ => none, validateSpecial := none,
      completeFn := Except.ok,
      parseTarget := fun t => Except.ok ⟨RecordType.CNAME, t, 0⟩, entryTTL := 0 }
    "zone.example" ⟨"a.example", ["x", "x"], [], none⟩
    rfl rfl rfl (by decide) rfl rfl (by decide)
    (by intro t ht; fin_cases ht <;> decide)
    (by intro t ht; exact ⟨⟨RecordType.CNAME, t, 0⟩, rfl⟩)

/-! ## Final state derivation of `EntryVersion.Setup` -/

/-- A DNS provider as seen by the final state derivation: its object name and
    its validity flag (`DNSProvider.IsValid`). -/
structure ProviderM where
  name : String
  valid : Bool
deriving DecidableEq, Repr

/-- Message marker `MSG_PRESERVED`. -/
def MSG_PRESERVED : String := "errorneous entry preserved in provider"

/-- Whether the premise provider is non-nil and invalid
    (`p.provider != nil && !p.provider.IsValid()`). -/
def providerInvalid : Option ProviderM → Bool
  | some pr => !pr.valid
  | none => false

/-- The error/validity determination at the end of `EntryVersion.Setup`
    (after target normalization, before the generation check): returns the
    updated status and the `valid` flag, or `none` where the source would
    dereference a nil pointer (a nil provider with a resolved zone, or a nil
    message in the STALE branch). -/
def deriveStateErr (errIn : Option String) (pZoneid : String) (pProvider : Option ProviderM)
    (st : BaseStatus) : Option (BaseStatus × Bool) :=
  match errIn with
  | some e =>
    if st.state ≠ STATE_STALE then
      let newState :=
        if (st.state == STATE_READY) && providerInvalid pProvider then STATE_STALE
        else STATE_ERROR
      some ({ st with state := newState, message := some e }, false)
    else
      match st.message with
      | none => none
      | some m =>
        let msg := if m.startsWith MSG_PRESERVED then MSG_PRESERVED ++ ": " ++ e else e
        some ({ st with message := some msg }, false)
  | none =>
    if pZoneid = "" then
      let stErr : BaseStatus :=
        { st with state := STATE_ERROR, provider := none, message := some "no provider found" }
      some (stErr, false)
    else
      match pProvider with
      | none => none
      | some pr =>
        if pr.valid then some (st, true)
        else
          let stStale : BaseStatus :=
            { st with state := STATE_STALE, message := some ("provider " ++ pr.name ++ " not valid") }
          some (stStale, false)

/-- The generation check at the end of `EntryVersion.Setup`: a READY state is
    forced back to PENDING when the object's generation differs from the
    persisted observed generation. -/
def applyGenerationCheck (st : BaseStatus) (generation observedGeneration : Int) : BaseStatus :=
  if st.state = STATE_READY ∧ generation ≠ observedGeneration then
    { st with state := STATE_PENDING }
  else st

/-- The full final state derivation: error/validity determination followed by
    the generation check. -/
def deriveStateFinal (errIn : Option String) (pZoneid : String) (pProvider : Option ProviderM)
    (st : BaseStatus) (generation observedGeneration : Int) : Option (BaseStatus × Bool) :=
  (deriveStateErr errIn pZoneid pProvider st).map
    (fun r => (applyGenerationCheck r.1 generation observedGeneration, r.2))

/-- C7: the derived state is READY only when a zone is resolved, a valid
    provider is resolved, no upstream error is pending, the version is marked
    valid, and the generation equals the observed generation; and a state
    that would be READY before the generation check is forced to PENDING when
    the generations differ.  (This derivation only runs after spec validation
    succeeded — a validation failure returns from Setup before it.) -/
theorem C7_ready_gating (errIn : Option String) (pZoneid : String)
    (pProvider : Option ProviderM) (st : BaseStatus) (generation observedGeneration : Int) :
    (∀ st' v, deriveStateFinal errIn pZoneid pProvider st generation observedGeneration =
        some (st', v) →
      st'.state = STATE_READY →
        errIn = none ∧ pZoneid ≠ "" ∧ (∃ pr, pProvider = some pr ∧ pr.valid = true) ∧
        v = true ∧ generation = observedGeneration ∧ st.state = STATE_READY) ∧
    (∀ st' v, deriveStateErr errIn pZoneid pProvider st = some (st', v) →
      st'.state = STATE_READY → generation ≠ observedGeneration →
        (applyGenerationCheck st' generation observedGeneration).state = STATE_PENDING) := by
  constructor
  · intro st' v hder hready
    unfold deriveStateFinal at hder
    cases herr : deriveStateErr errIn pZoneid pProvider st with
    | none =>
      rw [herr] at hder
      exact absurd hder (by simp)
    | some r =>
      rw [herr] at hder
      simp only [Option.map_some', Option.some.injEq, Prod.ext_iff] at hder
      obtain ⟨hst', hv⟩ := hder
      have hgen : generation = observedGeneration := by
        by_contra hne
        unfold applyGenerationCheck at hst'
        by_cases hc : r.1.state = STATE_READY ∧ generation ≠ observedGeneration
        · rw [if_pos hc] at hst'
          have hPend : st'.state = STATE_PENDING := by rw [← hst']
          exact absurd (hPend.symm.trans hready) (by decide)
        · rw [if_neg hc] at hst'
          push_neg at hc
          rw [← hst'] at hready
          exact hne (hc hready)
      have hid : applyGenerationCheck r.1 generation observedGeneration = r.1 := by
        unfold applyGenerationCheck
        simp [hgen]
      rw [hid] at hst'
      rw [← hst'] at hready
      cases errIn with
      | some e =>
        exfalso
        by_cases hstale : st.state = STATE_STALE
        · cases hm : st.message with
          | none => simp [deriveStateErr, hstale, hm] at herr
          | some m =>
            simp only [deriveStateErr, hstale, hm, ne_eq, not_true_eq_false, if_false,
              Option.some.injEq] at herr
            have hs : STATE_STALE = r.1.state := congrArg (fun q => q.1.state) herr
            rw [← hs] at hready
            exact absurd hready (by decide)
        · simp only [deriveStateErr, ne_eq, hstale, not_false_eq_true, if_true,
            Option.some.injEq] at herr
          have hs : (if (st.state == STATE_READY) && providerInvalid pProvider then STATE_STALE
              else STATE_ERROR) = r.1.state := congrArg (fun q => q.1.state) herr
          rw [← hs] at hready
          cases hcb : (st.state == STATE_READY) && providerInvalid pProvider with
          | true =>
            rw [hcb] at hready
            simp only [if_true] at hready
            exact absurd hready (by decide)
          | false =>
            rw [hcb] at hready
            simp only [Bool.false_eq_true, if_false] at hready
            exact absurd hready (by decide)
      | none =>
        by_cases hzone : pZoneid = ""
        · exfalso
          simp only [deriveStateErr, hzone, if_true, Option.some.injEq] at herr
          have hs : STATE_ERROR = r.1.state := congrArg (fun q => q.1.state) herr
          rw [← hs] at hready
          exact absurd hready (by decide)
        · cases hpr : pProvider with
          | none => simp [deriveStateErr, hzone, hpr] at herr
          | some pr =>
            cases hval : pr.valid with
            | true =>
              simp only [deriveStateErr, hzone, hpr, hval, if_false, if_true,
                Option.some.injEq] at herr
              have hr1 : st = r.1 := congrArg Prod.fst herr
              have hr2 : true = r.2 := congrArg Prod.snd herr
              rw [← hr1] at hready
              exact ⟨rfl, hzone, ⟨pr, rfl, hval⟩, (hr2.trans hv).symm, hgen, hready⟩
            | false =>
              exfalso
              simp only [deriveStateErr, hzone, hpr, hval, Bool.false_eq_true, if_false,
                Option.some.injEq] at herr
              have hs : STATE_STALE = r.1.state := congrArg (fun q => q.1.state) herr
              rw [← hs] at hready
              exact absurd hready (by decide)
  · intro st' v _ hready hgen
    unfold applyGenerationCheck
    rw [if_pos ⟨hready, hgen⟩]

/-- Witness for C7 at concrete inputs: a READY status with matching
    generations stays READY with all gating conditions met, and a READY
    status with differing generations is forced to PENDING. -/
theorem C7_ready_gating_witness :
    ((none : Option String) = none ∧ "z1" ≠ "" ∧
      (∃ pr, (some ⟨"p1", true⟩ : Option ProviderM) = some pr ∧ pr.valid = true) ∧
      true = true ∧ (5 : Int) = 5 ∧
      (⟨STATE_READY, none, none, none, none, none, 0, none, 0⟩ : BaseStatus).state =
        STATE_READY) ∧
    (applyGenerationCheck ⟨STATE_READY, none, none, none, none, none, 0, none, 0⟩ 5 3).state =
      STATE_PENDING := by
  constructor
  · exact (C7_ready_gating none "z1" (some ⟨"p1", true⟩)
      ⟨STATE_READY, none, none, none, none, none, 0, none, 0⟩ 5 5).1
      ⟨STATE_READY, none, none, none, none, none, 0, none, 0⟩ true (by rfl) rfl
  · exact (C7_ready_gating none "z1" (some ⟨"p1", true⟩)
      ⟨STATE_READY, none, none, none, none, none, 0, none, 0⟩ 5 3).2
      ⟨STATE_READY, none, none, none, none, none, 0, none, 0⟩ true (by rfl) rfl (by decide)

/-! ## Entry identity and `Entry.Update` -/

/-- The snapshot values of one `EntryVersion` consulted by `Entry.Update` and
    `RequiresUpdateFor`: object name, DNS name, status zone and state, TTL,
    owner id, validity, obsolescence, targets and refresh time. -/
structure EntryVersionM where
  objectName : String
  dnsname : String
  zone : Option String
  state : String
  ttl : Option Int
  ownerId : String
  valid : Bool
  obsolete : Bool
  targets : Targets
  refreshTime : Int
deriving DecidableEq, Repr

/-- `EntryVersion.ZoneId`: the status zone, empty when unset. -/
def EntryVersionM.ZoneId (v : EntryVersionM) : String := v.zone.getD ""

/-- The zoned name identity (`ZonedDNSName`): zone id plus DNS name. -/
structure ZonedDNSName where
  zoneID : String
  dnsName : String
deriving DecidableEq, Repr

/-- `EntryVersion.ZonedDNSName`. -/
def EntryVersionM.ZonedDNSName (v : EntryVersionM) : ZonedDNSName :=
  ⟨v.ZoneId, v.dnsname⟩

/-- The identity-bearing `Entry`: lock identity, stable key, creation time,
    modified flag, active zone and the current version snapshot. -/
structure EntryM where
  lockid : Nat
  key : String
  createdAt : Int
  modified : Bool
  activezone : String
  version : EntryVersionM
deriving DecidableEq, Repr

/-- Construction of a fresh Entry (`NewEntry`): a fresh lock, the key taken
    from the version's object name, marked modified, created now, active zone
    from the version's status zone. -/
def NewEntry (v : EntryVersionM) (freshLockId : Nat) (now : Int) : EntryM :=
  { lockid := freshLockId, key := v.objectName, createdAt := now, modified := true,
    activezone := v.zone.getD "", version := v }

/-- Modelled from the spec: `Targets.DifferFrom` — value inequality of target
    collections. -/
def Targets.DifferFrom (a b : Targets) : Bool := a != b

/-- `EntryVersion.RequiresUpdateFor`: the list of reasons why the new version
    differs from the current one. -/
def RequiresUpdateReasons (this e : EntryVersionM) : List String :=
  (if this.dnsname ≠ e.dnsname then ["dnsname changed"] else []) ++
  (if this.ttl ≠ e.ttl then ["ttl changed"] else []) ++
  (if this.valid ≠ e.valid then ["validation state changed"] else []) ++
  (if this.ZoneId ≠ e.ZoneId then ["zone changed"] else []) ++
  (if this.ownerId ≠ e.ownerId then ["ownerid changed"] else []) ++
  (if Targets.DifferFrom this.targets e.targets then ["targets changed"] else []) ++
  (if this.state ≠ e.state ∧ e.state ≠ STATE_READY then ["state changed"] else []) ++
  (if this.obsolete ≠ e.obsolete then ["provider responsibility changed"] else []) ++
  (if this.refreshTime < e.refreshTime then ["refresh time changed"] else [])

/-- `Entry.Update`: build a fresh Entry (with a fresh lock) when the zoned
    name identity changed; otherwise install the new version in the existing
    Entry, updating the modified flag from the update reasons and from a
    STALE-to-valid transition, and keeping key, lock and creation time. -/
def EntryM.Update (this : EntryM) (new : EntryVersionM) (freshLockId : Nat) (now : Int) :
    EntryM :=
  if this.version.ZonedDNSName ≠ new.ZonedDNSName then
    NewEntry new freshLockId now
  else
    let modified1 :=
      if RequiresUpdateReasons this.version new ≠ [] then true else this.modified
    let e1 : EntryM := { this with version := new, modified := modified1 }
    if new.valid && (new.state == STATE_STALE) then { e1 with modified := true } else e1

/-- C9: `Entry.Update` keeps the same Entry — same lock, key and creation
    time, with the new version installed — when the new version's zoned DNS
    name equals the current one, and otherwise returns a freshly constructed
    Entry whose lock is the fresh one and whose key comes from the new
    version's object name. -/
theorem C9_entry_update (this : EntryM) (new : EntryVersionM) (freshLockId : Nat) (now : Int) :
    (this.version.ZonedDNSName = new.ZonedDNSName →
      (this.Update new freshLockId now).lockid = this.lockid ∧
      (this.Update new freshLockId now).key = this.key ∧
      (this.Update new freshLockId now).createdAt = this.createdAt ∧
      (this.Update new freshLockId now).version = new) ∧
    (this.version.ZonedDNSName ≠ new.ZonedDNSName →
      this.Update new freshLockId now = NewEntry new freshLockId now ∧
      (this.Update new freshLockId now).lockid = freshLockId ∧
      (this.Update new freshLockId now).key = new.objectName ∧
      (this.Update new freshLockId now).version = new) := by
  constructor
  · intro heq
    unfold EntryM.Update
    rw [if_neg (by simp [heq])]
    by_cases hval : (new.valid && (new.state == STATE_STALE)) = true
    · rw [if_pos hval]
      exact ⟨rfl, rfl, rfl, rfl⟩
    · rw [if_neg hval]
      exact ⟨rfl, rfl, rfl, rfl⟩
  · intro hne
    unfold EntryM.Update
    rw [if_pos hne]
    exact ⟨rfl, rfl, rfl, rfl⟩

/-- Witness for C9 at concrete inputs: an unchanged zoned name keeps lock 7
    and key "k", a changed zoned name takes the fresh lock 9 and the new
    object name. -/
theorem C9_entry_update_witness :
    ((EntryM.Update ⟨7, "k", 3, false, "z", ⟨"k", "d", some "z", "Ready", none, "", true, false, [], 0⟩⟩
        ⟨"k", "d", some "z", "Ready", none, "", true, false, [], 1⟩ 9 5).lockid = 7 ∧
      (EntryM.Update ⟨7, "k", 3, false, "z", ⟨"k", "d", some "z", "Ready", none, "", true, false, [], 0⟩⟩
        ⟨"k", "d", some "z", "Ready", none, "", true, false, [], 1⟩ 9 5).key = "k") ∧
    (EntryM.Update ⟨7, "k", 3, false, "z", ⟨"k", "d", some "z", "Ready", none, "", true, false, [], 0⟩⟩
        ⟨"k2", "d2", some "z", "Ready", none, "", true, false, [], 1⟩ 9 5).lockid = 9 := by
  constructor
  · have h := (C9_entry_update
      ⟨7, "k", 3, false, "z", ⟨"k", "d", some "z", "Ready", none, "", true, false, [], 0⟩⟩
      ⟨"k", "d", some "z", "Ready", none, "", true, false, [], 1⟩ 9 5).1 (by decide)
    exact ⟨h.1, h.2.1⟩
  · exact ((C9_entry_update
      ⟨7, "k", 3, false, "z", ⟨"k", "d", some "z", "Ready", none, "", true, false, [], 0⟩⟩
      ⟨"k2", "d2", some "z", "Ready", none, "", true, false, [], 1⟩ 9 5).2 (by decide)).2.1

/-! ## `EntryVersion.UpdateStatus` -/

/-- The in-memory context of `EntryVersion.UpdateStatus`: the derived status
    fields of the version, its effective targets, and the object's
    generation. -/
structure UpdateStatusCtx where
  statusState : String
  statusTTL : Option Int
  statusProvider : Option String
  targets : Targets
  generation : Int
deriving DecidableEq, Repr

/-- Modelled from the spec: `AcknowledgeTargets` — record the given host list
    (or clear it for nil) in the persisted status, reporting whether it
    changed. -/
def AcknowledgeTargets (b : BaseStatus) (list : Option (List String)) : BaseStatus × Bool :=
  ({ b with targets := list }, b.targets != list)

/-- The host-name list of the effective targets (`targetList`). -/
def targetListHosts (ts : Targets) : List String := ts.map (fun t => t.host)

/-- The status-mutation closure of `EntryVersion.UpdateStatus` applied by
    `ModifyStatus` to the persisted base status: returns the mutated status
    and whether anything was modified (the modified flag also drives the
    last-update-time stamp). -/
def UpdateStatusMutator (ctx : UpdateStatusCtx) (state msg : String) (now : Int)
    (b : BaseStatus) : BaseStatus × Bool :=
  if state == STATE_PENDING && b.state != "" then (b, false)
  else
    let step1 : BaseStatus × Bool :=
      if state == STATE_READY then
        let bTTL : BaseStatus := { b with ttl := ctx.statusTTL }
        let m1 := b.ttl != ctx.statusTTL
        let ack := AcknowledgeTargets bTTL (some (targetListHosts ctx.targets))
        let m2 := m1 || ack.2
        match ctx.statusProvider with
        | some pv => ({ ack.1 with provider := some pv }, m2 || (ack.1.provider != some pv))
        | none => (ack.1, m2)
      else if state != STATE_STALE then
        let ack := AcknowledgeTargets b none
        (ack.1, ack.2)
      else (b, false)
    let b1 := step1.1
    let mod1 := step1.2
    let b2 : BaseStatus := { b1 with observedGeneration := ctx.generation }
    let mod2 := mod1 || (b1.observedGeneration != ctx.generation)
    let step3 : BaseStatus × Bool :=
      if !((ctx.statusState == STATE_STALE) && (ctx.statusState == state)) then
        ({ b2 with message := some msg }, mod2 || (b2.message != some msg))
      else (b2, mod2)
    let b3 := step3.1
    let mod3 := step3.2
    let b4 : BaseStatus := { b3 with state := state }
    let mod4 := mod3 || (b3.state != state)
    if mod4 then ({ b4 with lastUpdateTime := now }, true) else (b4, false)

/-- C10: calling `UpdateStatus` with state PENDING while the persisted status
    state is any non-empty string is a no-op — the mutation closure returns
    the status unchanged with a false modification flag, so `ModifyStatus`
    persists nothing and `UpdateStatus` returns `(false, nil)`. -/
theorem C10_pending_noop (ctx : UpdateStatusCtx) (msg : String) (now : Int) (b : BaseStatus)
    (hne : b.state ≠ "") :
    UpdateStatusMutator ctx STATE_PENDING msg now b = (b, false) := by
  unfold UpdateStatusMutator
  have hc : ((STATE_PENDING == STATE_PENDING) && (b.state != "")) = true := by
    simp [hne]
  rw [hc]
  rfl

/-- Witness for C10 at a concrete input: an ERROR status is left untouched by
    a PENDING update. -/
theorem C10_pending_noop_witness :
    UpdateStatusMutator ⟨STATE_READY, some 300, some "p1", [], 4⟩ STATE_PENDING "m" 9
        ⟨STATE_ERROR, some "old", none, none, none, some 60, 2, some ["1.2.3.4"], 1⟩ =
      (⟨STATE_ERROR, some "old", none, none, none, some 60, 2, some ["1.2.3.4"], 1⟩, false) :=
  C10_pending_noop ⟨STATE_READY, some 300, some "p1", [], 4⟩ "m" 9
    ⟨STATE_ERROR, some "old", none, none, none, some 60, 2, some ["1.2.3.4"], 1⟩ (by decide)

end DNSEngine
